import Mathlib

set_option maxRecDepth 100000

/-!
Shallow embedding of the CodeBot autonomous agent (src/app/agent.py and
src/app/tools.py): the per-step execution state machine of execute_step,
response parsing and validation, the safety policy, tool dispatch, and the
task orchestrator run_agent.  External collaborators are explicit
parameters: the language model is an oracle giving the raw reply text of
each query, the standard json library is a parse oracle of type
String to Except String Json, the subprocess layer is an oracle mapping a
command and a filesystem to a result and a new filesystem, and the on-disk
filesystem is an association list from path to file content.
-/

/-- JSON values as produced by the json library.  Numbers are restricted
to integers, which is all the development needs. -/
inductive Json where
  | null : Json
  | bool : Bool → Json
  | num : Int → Json
  | str : String → Json
  | arr : List Json → Json
  | obj : List (String × Json) → Json

/-- Python truthiness of a parsed JSON value: the values None, False, 0,
the empty string, the empty list and the empty dict are falsy. -/
def Json.falsy : Json → Bool
  | .null => true
  | .bool b => !b
  | .num n => n == 0
  | .str s => s == ""
  | .arr xs => xs.isEmpty
  | .obj kvs => kvs.isEmpty

/-- Lookup of a key in the entry list of a JSON object, first match. -/
def lookupPairs : List (String × Json) → String → Option Json
  | [], _ => none
  | (k, v) :: rest, key => if k == key then some v else lookupPairs rest key

/-- Python indexing data[key]: succeeds exactly on a dict holding the key. -/
def Json.lookup : Json → String → Option Json
  | .obj kvs, key => lookupPairs kvs key
  | _, _ => none

/-- validate_response from agent.py: accepts exactly a one-key object
final with a string value, or a two-key object action and input with both
values strings; returns the flag and the error text of the source. -/
def validate_response (parsed : Json) : Bool × Option String :=
  match parsed with
  | .obj kvs =>
    match lookupPairs kvs "final" with
    | some v =>
      if kvs.length != 1 then (false, some "Final response contains extra keys")
      else
        match v with
        | .str _ => (true, none)
        | _ => (false, some "Final value must be string")
    | none =>
      match lookupPairs kvs "action", lookupPairs kvs "input" with
      | some a, some i =>
        if kvs.length != 2 then (false, some "Tool call contains extra keys")
        else
          match a with
          | .str _ =>
            match i with
            | .str _ => (true, none)
            | _ => (false, some "Input must be string")
          | _ => (false, some "Action must be string")
      | _, _ => (false, some "Invalid JSON structure")
  | _ => (false, some "Response is not a JSON object")

/-- The final-answer shape: an object with exactly the key final and a
string value. -/
def isFinalShape (j : Json) : Bool :=
  match j with
  | .obj kvs =>
    kvs.length == 1 &&
      (match lookupPairs kvs "final" with
       | some (.str _) => true
       | _ => false)
  | _ => false

/-- The tool-call shape: an object with exactly the keys action and input,
both with string values. -/
def isToolShape (j : Json) : Bool :=
  match j with
  | .obj kvs =>
    kvs.length == 2 &&
      (match lookupPairs kvs "action" with
       | some (.str _) => true
       | _ => false) &&
      (match lookupPairs kvs "input" with
       | some (.str _) => true
       | _ => false)
  | _ => false

/-- The json.loads collaborator: either a parsed value or the message of
the raised JSONDecodeError. -/
abbrev JsonParse := String → Except String Json

/-- parse_json_response from agent.py: the parsed value, or None when the
json library raises. -/
def parse_json_response (jp : JsonParse) (response : String) : Option Json :=
  match jp response with
  | .ok j => some j
  | .error _ => none

/-- The filesystem seen by the tools: an association list from path to
file content. -/
abbrev FS := List (String × String)

/-- First-match lookup in a string association list. -/
def lookupStr : List (String × String) → String → Option String
  | [], _ => none
  | (k, v) :: rest, key => if k == key then some v else lookupStr rest key

/-- Python dict assignment d[k] = v on an association list: replace the
first binding of the key, or append a new binding. -/
def updateAssoc : List (String × String) → String → String → List (String × String)
  | [], k, v => [(k, v)]
  | (k0, v0) :: rest, k, v =>
    if k0 == k then (k, v) :: rest else (k0, v0) :: updateAssoc rest k v

/-- The whitespace characters stripped by Python str.strip. -/
def isPySpace (c : Char) : Bool :=
  c == ' ' || c == '\t' || c == '\n' || c == '\r' || c == '\x0b' || c == '\x0c'

/-- Drop leading whitespace from a character list. -/
def dropLeadingSpaces : List Char → List Char
  | [] => []
  | c :: cs => if isPySpace c then dropLeadingSpaces cs else c :: cs

/-- Python str.strip: remove leading and trailing whitespace. -/
def pyStrip (s : String) : String :=
  String.mk (dropLeadingSpaces ((dropLeadingSpaces s.data.reverse).reverse))

/-- Whether the pattern list is an initial segment of the text list. -/
def startsWith : List Char → List Char → Bool
  | [], _ => true
  | _ :: _, [] => false
  | c :: cs, d :: ds => c == d && startsWith cs ds

/-- Whether the pattern occurs as a contiguous segment of the text. -/
def containsChars (pat : List Char) : List Char → Bool
  | [] => startsWith pat []
  | d :: ds => startsWith pat (d :: ds) || containsChars pat ds

/-- Python substring membership: pat in s. -/
def containsSub (s pat : String) : Bool := containsChars pat.data s.data

/-- A tool execution result, the dict returned by every tool run method. -/
structure ToolResult where
  stdout : String
  stderr : String
  returncode : Int
deriving DecidableEq

/-- The subprocess collaborator used by the shell tool: a command turns a
filesystem into a raw result and a new filesystem. -/
abbrev ShellExec := String → FS → ToolResult × FS

/-- The denylist checked inside ShellTool.run in tools.py. -/
def blocked : List String := ["rm ", "shutdown", "reboot", "mkfs", "dd "]

/-- ShellTool.run from tools.py: block destructive substrings with a
returncode 1 result, otherwise run the subshell and strip its output. -/
def ShellTool.run (se : ShellExec) (fs : FS) (input : String) : ToolResult × FS :=
  if blocked.any (fun cmd => containsSub input cmd) then
    ({ stdout := "", stderr := "Command blocked for safety.", returncode := 1 }, fs)
  else
    ({ stdout := pyStrip (se input fs).1.stdout,
       stderr := pyStrip (se input fs).1.stderr,
       returncode := (se input fs).1.returncode }, (se input fs).2)

/-- ReadFileTool.run from tools.py, restricted to worlds of readable text
files: a missing path gives a returncode 1 result, an existing text file
gives the stripped content with returncode 0.  This restriction is what
the step machine exercises through files_read; the source body has no
try/except, and its raise paths on entries that are not readable text
files are modelled faithfully by ReadFileTool.runOS below, which agrees
with this function on worlds of text files (runOS_agrees_on_text). -/
def ReadFileTool.run (fs : FS) (input : String) : ToolResult :=
  match lookupStr fs input with
  | none => { stdout := "", stderr := "File not found.", returncode := 1 }
  | some content => { stdout := pyStrip content, stderr := "", returncode := 0 }

/-- An entry of the OS-level filesystem: a readable text file, a
directory, or a file whose bytes do not decode as text. -/
inductive OsEntry where
  | file : String → OsEntry
  | dir : OsEntry
  | binary : OsEntry
deriving DecidableEq

/-- The OS-level filesystem: paths can also name directories and
undecodable files, as on a real disk. -/
abbrev OsFS := List (String × OsEntry)

/-- First-match lookup in the OS-level filesystem. -/
def lookupOs : OsFS → String → Option OsEntry
  | [], _ => none
  | (k, v) :: rest, key => if k == key then some v else lookupOs rest key

/-- os.path.exists as called by ReadFileTool.run: true for any existing
entry, directories included. -/
def os_path_exists (ofs : OsFS) (p : String) : Bool := (lookupOs ofs p).isSome

/-- ReadFileTool.run from tools.py over the OS-level filesystem, with the
raise paths of the source kept.  The body performs os.path.exists and
then open and read with no try/except: a missing entry (exists false)
returns the returncode 1 result, a text file returns the stripped
content, but an existing directory makes open raise IsADirectoryError
and an undecodable file makes read raise UnicodeDecodeError; the error
branch models the exception escaping the run method uncaught. -/
def ReadFileTool.runOS (ofs : OsFS) (input : String) : Except String ToolResult :=
  match lookupOs ofs input with
  | none => Except.ok { stdout := "", stderr := "File not found.", returncode := 1 }
  | some (OsEntry.file content) =>
    Except.ok { stdout := pyStrip content, stderr := "", returncode := 0 }
  | some OsEntry.dir => Except.error "IsADirectoryError"
  | some OsEntry.binary => Except.error "UnicodeDecodeError"

/-- Whether every entry of the OS-level filesystem is a readable text
file. -/
def osAllFiles : OsFS → Bool
  | [] => true
  | (_, OsEntry.file _) :: rest => osAllFiles rest
  | (_, OsEntry.dir) :: _ => false
  | (_, OsEntry.binary) :: _ => false

/-- The text-file view of an OS-level filesystem. -/
def osTextFiles : OsFS → FS
  | [] => []
  | (p, OsEntry.file c) :: rest => (p, c) :: osTextFiles rest
  | (_, OsEntry.dir) :: rest => osTextFiles rest
  | (_, OsEntry.binary) :: rest => osTextFiles rest

/-- WriteFileTool.run from tools.py: decode the payload, read its path and
content fields and write the file; every failure of this sequence is
caught and returned as a returncode 1 result whose stderr holds the
exception message. -/
def WriteFileTool.run (jp : JsonParse) (fs : FS) (input_str : String) : ToolResult × FS :=
  match jp input_str with
  | .error e => ({ stdout := "", stderr := e, returncode := 1 }, fs)
  | .ok data =>
    match data.lookup "path" with
    | none => ({ stdout := "", stderr := "KeyError: path", returncode := 1 }, fs)
    | some p =>
      match data.lookup "content" with
      | none => ({ stdout := "", stderr := "KeyError: content", returncode := 1 }, fs)
      | some c =>
        match p, c with
        | .str ps, .str cs =>
          ({ stdout := "File written", stderr := "", returncode := 0 }, updateAssoc fs ps cs)
        | _, _ =>
          ({ stdout := "", stderr := "TypeError: path and content must be strings",
             returncode := 1 }, fs)

/-- Modelled from the spec: ListDirTool is imported and registered as
list_dir in agent.py but its definition is absent from tools.py.  Spec
section 4.3 says list_dir takes a path string and lists entries
non-recursively; modelled as returning the registered paths below the
given path with empty stderr and exit code 0. -/
def ListDirTool.run (fs : FS) (input : String) : ToolResult :=
  { stdout :=
      String.intercalate "\n"
        ((fs.filter (fun kv => startsWith input.data kv.1.data)).map (fun kv => kv.1)),
    stderr := "", returncode := 0 }

/-- The names of the TOOLS registry of agent.py, in registration order. -/
def TOOLS : List String := ["shell", "read_file", "write_file", "list_dir"]

/-- Dispatch of tool.run on the registry: the name selects the tool and
the input is passed through. -/
def runTool (jp : JsonParse) (se : ShellExec) (a inp : String) (fs : FS) : ToolResult × FS :=
  if a == "shell" then ShellTool.run se fs inp
  else if a == "read_file" then (ReadFileTool.run fs inp, fs)
  else if a == "write_file" then WriteFileTool.run jp fs inp
  else if a == "list_dir" then (ListDirTool.run fs inp, fs)
  else ({ stdout := "", stderr := "", returncode := 1 }, fs)

/-- A conversation message: a role tag and free-text content. -/
structure Msg where
  role : String
  content : String
deriving DecidableEq

/-- The shared task state of run_agent: completed step results, the
previous step output, and the read-before-write memory files_read. -/
structure TaskState where
  step_results : List String
  last_stdout : String
  files_read : List (String × String)
deriving DecidableEq

/-- The mutable state of one execute_step loop.  The invocations field
instruments the single tool.run call site, recording each dispatched
action and input; the queries field counts the ask_llm calls. -/
structure LoopState where
  messages : List Msg
  retry_count : Nat
  les : Bool
  ts : TaskState
  fs : FS
  invocations : List (String × String)
  queries : Nat
deriving DecidableEq

/-- The distinct unrecoverable exits of execute_step, one per return None
site, plus the retry-limit exit. -/
inductive FailCause where
  | invalidJson : FailCause
  | invalidStructure : FailCause
  | unknownTool : FailCause
  | invalidWriteInput : FailCause
  | writeBeforeRead : FailCause
  | forbiddenCommand : FailCause
  | retryLimit : FailCause
deriving DecidableEq

/-- Outcome of one iteration of the execute_step while loop: a final
answer accepted, an unrecoverable failure, or a transition back to
querying the model. -/
inductive IterOut where
  | done : String → LoopState → IterOut
  | failed : FailCause → LoopState → IterOut
  | retry : LoopState → IterOut
deriving DecidableEq

/-- The loop state carried by an iteration outcome. -/
def IterOut.state : IterOut → LoopState
  | .done _ s => s
  | .failed _ s => s
  | .retry s => s

/-- Whether the outcome transitions back to querying the model. -/
def IterOut.isRetry : IterOut → Bool
  | .retry _ => true
  | _ => false

/-- The SYSTEM_PROMPT string of agent.py. -/
def SYSTEM_PROMPT : String :=
  "\nYou are an autonomous AI agent.\n\nAvailable tools:\n- shell: Execute safe shell commands\n- read_file: Read file contents\n\nYou MUST respond in valid JSON only.\n\nRules:\n- Output must be a single JSON object.\n- Do not wrap JSON in markdown.\n- Do not add any explanation.\n- Do not add extra keys.\n\nIf using a tool, respond EXACTLY like:\n\n\x7b\n  \"action\": \"tool_name\",\n  \"input\": \"tool_input\"\n\x7d\n\nIf task is complete, respond EXACTLY like:\n\n\x7b\n  \"final\": \"your final answer as a STRING\"\n\x7d\n\nYou may ONLY execute shell commands that directly accomplish the current step.\nDo NOT install packages.\nDo NOT create virtual environments.\nDo NOT modify global environment.\nOnly operate within the project directory.\n\nIMPORTANT:\n- The value of \"final\" MUST be a string.\n- Even if returning multiple items, format them as a single string.\n- You may only return ONE JSON object per response.\n- If multiple steps are required, perform them one at a time.\n- Do not output multiple JSON objects.\n"

/-- The task-state-aware user message seeding each step conversation. -/
def seedUserMsg (ts : TaskState) (task : String) : String :=
  "\nCurrent task state:\nLast step output:\n" ++ ts.last_stdout ++
    "\n\nExecute this step:\n" ++ task ++ "\n"

/-- The corrective user message sent on a premature final answer. -/
def finalizeCorrectiveMsg : String :=
  "You must successfully execute a tool before finalizing this step."

/-- The corrective user message sent on a failed tool execution, quoting
the return code and the stderr of the result. -/
def toolFailMsg (res : ToolResult) : String :=
  "\nTool execution failed.\n\nReturn code: " ++ toString res.returncode ++
    "\nStderr: " ++ res.stderr ++ "\n\nFix the command and try again.\n"

/-- The user message sent on a successful tool execution, quoting stdout. -/
def toolSuccessMsg (res : ToolResult) : String :=
  "\nTool executed successfully.\n\nStdout:\n" ++ res.stdout ++ "\n"

/-- The forbidden substrings checked by execute_step on shell inputs. -/
def forbiddenWords : List String := ["pip", "venv", "apt", "yum", "brew", "install"]

/-- The loop state after rejecting a premature final answer: the reply
and the corrective instruction are appended and the retry counter grows. -/
def premFinalState (r : String) (s : LoopState) : LoopState :=
  { s with
    messages := s.messages ++ [⟨"assistant", r⟩, ⟨"user", finalizeCorrectiveMsg⟩],
    retry_count := s.retry_count + 1 }

/-- The FINAL CASE of execute_step: accept only after a successful
execution, otherwise reject and return to querying. -/
def handleFinal (r v : String) (s : LoopState) : IterOut :=
  if s.les then .done v s else .retry (premFinalState r s)

/-- The files_read bookkeeping after a dispatch: a successful read_file
stores the stdout of the result under the input path. -/
def readUpdate (a inp : String) (res : ToolResult) (ts : TaskState) : TaskState :=
  if a == "read_file" && res.returncode == 0 then
    { ts with files_read := updateAssoc ts.files_read inp res.stdout }
  else ts

/-- The loop state after a failed tool execution: record the invocation,
keep the new filesystem, update files_read, clear the success flag,
append the corrective message and grow the retry counter. -/
def execFailState (r a inp : String) (res : ToolResult) (fs' : FS) (s : LoopState) : LoopState :=
  { s with
    fs := fs',
    invocations := s.invocations ++ [(a, inp)],
    ts := readUpdate a inp res s.ts,
    les := false,
    messages := s.messages ++ [⟨"assistant", r⟩, ⟨"user", toolFailMsg res⟩],
    retry_count := s.retry_count + 1 }

/-- The loop state after a successful tool execution: record the
invocation, keep the new filesystem, update files_read, set the success
flag, append the stdout message and grow the retry counter. -/
def execSuccState (r a inp : String) (res : ToolResult) (fs' : FS) (s : LoopState) : LoopState :=
  { s with
    fs := fs',
    invocations := s.invocations ++ [(a, inp)],
    ts := readUpdate a inp res s.ts,
    les := true,
    messages := s.messages ++ [⟨"assistant", r⟩, ⟨"user", toolSuccessMsg res⟩],
    retry_count := s.retry_count + 1 }

/-- The FAILURE and SUCCESS sections of execute_step, applied to the
result of the dispatched tool: an execution failed exactly when its
return code is nonzero or its stderr is non-empty, and both branches
return to querying the model. -/
def afterExec (r a inp : String) (res : ToolResult) (fs' : FS) (s : LoopState) : IterOut :=
  if res.returncode != 0 || res.stderr != "" then .retry (execFailState r a inp res fs' s)
  else .retry (execSuccState r a inp res fs' s)

/-- Run the dispatched tool on the current filesystem and hand its result
to the failure or success section. -/
def dispatchTool (jp : JsonParse) (se : ShellExec) (r a inp : String) (s : LoopState) : IterOut :=
  afterExec r a inp (runTool jp se a inp s.fs).1 (runTool jp se a inp s.fs).2 s

/-- The decode step of the read-before-write check in execute_step:
json.loads on the write input followed by indexing with path; None when
either raises. -/
def writeDecodedPath (jp : JsonParse) (inp : String) : Option Json :=
  match jp inp with
  | .error _ => none
  | .ok d => d.lookup "path"

/-- Membership of the decoded path in files_read, as tested by the
read-before-write check; a non-string path is never a key. -/
def pathInFilesRead (ts : TaskState) (p : Json) : Bool :=
  match p with
  | .str ps => (lookupStr ts.files_read ps).isSome
  | _ => false

/-- The TOOL CALL CASE of execute_step: resolve the action in the
registry, enforce the read-before-write check on write_file and the
forbidden-substring check on shell, then dispatch. -/
def handleTool (jp : JsonParse) (se : ShellExec) (r a inp : String) (s : LoopState) : IterOut :=
  if !(TOOLS.contains a) then .failed .unknownTool s
  else if a == "write_file" then
    match writeDecodedPath jp inp with
    | none => .failed .invalidWriteInput s
    | some p =>
      if pathInFilesRead s.ts p then dispatchTool jp se r a inp s
      else .failed .writeBeforeRead s
  else if a == "shell" then
    if forbiddenWords.any (fun w => containsSub inp w) then .failed .forbiddenCommand s
    else dispatchTool jp se r a inp s
  else dispatchTool jp se r a inp s

/-- Handling of a validated reply: the final branch when the object has a
final key, otherwise the tool branch on its action and input strings.
The non-string fallbacks are unreachable because validation passed. -/
def handleValid (jp : JsonParse) (se : ShellExec) (r : String) (j : Json) (s : LoopState) : IterOut :=
  match j.lookup "final" with
  | some (.str v) => handleFinal r v s
  | some _ => .failed .invalidStructure s
  | none =>
    match j.lookup "action", j.lookup "input" with
    | some (.str a), some (.str inp) => handleTool jp se r a inp s
    | _, _ => .failed .invalidStructure s

/-- One iteration of the execute_step while loop on a raw model reply:
parse, test truthiness, validate, then handle the reply. -/
def stepIter (jp : JsonParse) (se : ShellExec) (r : String) (s : LoopState) : IterOut :=
  match parse_json_response jp r with
  | none => .failed .invalidJson s
  | some j =>
    if j.falsy then .failed .invalidJson s
    else if !(validate_response j).1 then .failed .invalidStructure s
    else handleValid jp se r j s

/-- max_retries in execute_step. -/
def max_retries : Nat := 5

/-- The initial loop state of execute_step: seeded conversation, retry
counter zero, last_execution_successful false. -/
def initState (task : String) (ts : TaskState) (fs : FS) : LoopState :=
  { messages := [⟨"system", SYSTEM_PROMPT⟩, ⟨"user", seedUserMsg ts task⟩],
    retry_count := 0, les := false, ts := ts, fs := fs, invocations := [], queries := 0 }

/-- The terminal outcome of a step: a final text, or a failure. -/
inductive StepOutcome where
  | done : String → StepOutcome
  | failed : FailCause → StepOutcome
deriving DecidableEq

/-- The while loop of execute_step, driven by fuel.  The retry guard of
the source is checked before any query; the fuel only bounds the number
of queries and is shown adequate below, so the None case is unreachable
from execute_step. -/
def stepLoopF (ask : Nat → String) (jp : JsonParse) (se : ShellExec) :
    Nat → LoopState → Option (StepOutcome × LoopState)
  | 0, s =>
    if s.retry_count ≥ max_retries then some (.failed .retryLimit, s) else none
  | fuel' + 1, s =>
    if s.retry_count ≥ max_retries then some (.failed .retryLimit, s)
    else
      match stepIter jp se (ask s.queries) { s with queries := s.queries + 1 } with
      | .done v s' => some (.done v, s')
      | .failed c s' => some (.failed c, s')
      | .retry s' => stepLoopF ask jp se fuel' s'

theorem readUpdate_step_results (a inp : String) (res : ToolResult) (ts : TaskState) :
    (readUpdate a inp res ts).step_results = ts.step_results := by
  unfold readUpdate
  split <;> rfl

theorem readUpdate_last_stdout (a inp : String) (res : ToolResult) (ts : TaskState) :
    (readUpdate a inp res ts).last_stdout = ts.last_stdout := by
  unfold readUpdate
  split <;> rfl

theorem afterExec_retry {r a inp : String} {res : ToolResult} {fs' : FS} {s s' : LoopState}
    (h : afterExec r a inp res fs' s = .retry s') : s'.retry_count = s.retry_count + 1 := by
  unfold afterExec at h
  split at h <;> (cases h; rfl)

theorem dispatchTool_retry {jp : JsonParse} {se : ShellExec} {r a inp : String} {s s' : LoopState}
    (h : dispatchTool jp se r a inp s = .retry s') : s'.retry_count = s.retry_count + 1 := by
  unfold dispatchTool at h
  exact afterExec_retry h

theorem handleTool_retry {jp : JsonParse} {se : ShellExec} {r a inp : String} {s s' : LoopState}
    (h : handleTool jp se r a inp s = .retry s') : s'.retry_count = s.retry_count + 1 := by
  unfold handleTool at h
  repeat' split at h
  all_goals first
    | cases h
    | exact dispatchTool_retry h

theorem handleFinal_retry {r v : String} {s s' : LoopState}
    (h : handleFinal r v s = .retry s') : s'.retry_count = s.retry_count + 1 := by
  unfold handleFinal at h
  split at h
  · cases h
  · cases h; rfl

theorem handleValid_retry {jp : JsonParse} {se : ShellExec} {r : String} {j : Json} {s s' : LoopState}
    (h : handleValid jp se r j s = .retry s') : s'.retry_count = s.retry_count + 1 := by
  unfold handleValid at h
  repeat' split at h
  all_goals first
    | cases h
    | exact handleFinal_retry h
    | exact handleTool_retry h

theorem stepIter_retry {jp : JsonParse} {se : ShellExec} {r : String} {s s' : LoopState}
    (h : stepIter jp se r s = .retry s') : s'.retry_count = s.retry_count + 1 := by
  unfold stepIter at h
  repeat' split at h
  all_goals first
    | cases h
    | exact handleValid_retry h

theorem stepIter_pres (jp : JsonParse) (se : ShellExec) (r : String) (s : LoopState) :
    (stepIter jp se r s).state.queries = s.queries ∧
    (stepIter jp se r s).state.ts.step_results = s.ts.step_results ∧
    (stepIter jp se r s).state.ts.last_stdout = s.ts.last_stdout := by
  unfold stepIter handleValid handleTool dispatchTool afterExec handleFinal
  repeat' split
  all_goals
    simp [IterOut.state, premFinalState, execFailState, execSuccState,
      readUpdate_step_results, readUpdate_last_stdout]

theorem stepLoopF_isSome (ask : Nat → String) (jp : JsonParse) (se : ShellExec) :
    ∀ (fuel : Nat) (s : LoopState), max_retries - s.retry_count ≤ fuel →
      (stepLoopF ask jp se fuel s).isSome := by
  intro fuel
  induction fuel with
  | zero =>
    intro s h
    simp only [stepLoopF]
    split
    · simp
    · next hlt =>
      simp only [max_retries] at h hlt
      omega
  | succ fuel ih =>
    intro s h
    simp only [stepLoopF]
    split
    · simp
    · next hlt =>
      split
      · simp
      · simp
      · next s' heq =>
        apply ih
        have hr := stepIter_retry heq
        simp only [] at hr
        simp only [max_retries] at h hlt ⊢
        omega

theorem stepLoopF_final {ask : Nat → String} {jp : JsonParse} {se : ShellExec} :
    ∀ {fuel : Nat} {s : LoopState} {out : StepOutcome} {s' : LoopState},
      stepLoopF ask jp se fuel s = some (out, s') →
      s'.queries ≤ s.queries + fuel ∧
      s'.ts.step_results = s.ts.step_results ∧
      s'.ts.last_stdout = s.ts.last_stdout := by
  intro fuel
  induction fuel with
  | zero =>
    intro s out s' h
    simp only [stepLoopF] at h
    split at h
    · simp only [Option.some.injEq, Prod.mk.injEq] at h
      obtain ⟨h1, h2⟩ := h
      subst h2
      exact ⟨Nat.le_refl _, rfl, rfl⟩
    · cases h
  | succ fuel ih =>
    intro s out s' h
    simp only [stepLoopF] at h
    split at h
    · simp only [Option.some.injEq, Prod.mk.injEq] at h
      obtain ⟨h1, h2⟩ := h
      subst h2
      exact ⟨Nat.le_add_right _ _, rfl, rfl⟩
    · split at h
      · next v sd heq =>
        simp only [Option.some.injEq, Prod.mk.injEq] at h
        obtain ⟨h1, h2⟩ := h
        subst h2
        have hp := stepIter_pres jp se (ask s.queries) { s with queries := s.queries + 1 }
        rw [heq] at hp
        simp only [IterOut.state] at hp
        exact ⟨by omega, hp.2.1, hp.2.2⟩
      · next c sd heq =>
        simp only [Option.some.injEq, Prod.mk.injEq] at h
        obtain ⟨h1, h2⟩ := h
        subst h2
        have hp := stepIter_pres jp se (ask s.queries) { s with queries := s.queries + 1 }
        rw [heq] at hp
        simp only [IterOut.state] at hp
        exact ⟨by omega, hp.2.1, hp.2.2⟩
      · next s1 heq =>
        have hp := stepIter_pres jp se (ask s.queries) { s with queries := s.queries + 1 }
        rw [heq] at hp
        simp only [IterOut.state] at hp
        have hrec := ih h
        refine ⟨by omega, ?_, ?_⟩
        · rw [hrec.2.1, hp.2.1]
        · rw [hrec.2.2, hp.2.2]

/-- execute_step from agent.py: run the bounded conversation loop from
the seeded initial state.  Totality comes from the adequacy of the fuel,
so the artificial out-of-fuel case of the driver is never reached. -/
def execute_step (ask : Nat → String) (jp : JsonParse) (se : ShellExec)
    (task : String) (ts : TaskState) (fs : FS) : StepOutcome × LoopState :=
  (stepLoopF ask jp se max_retries (initState task ts fs)).get
    (stepLoopF_isSome ask jp se max_retries (initState task ts fs) (by simp [initState]))

theorem execute_step_spec (ask : Nat → String) (jp : JsonParse) (se : ShellExec)
    (task : String) (ts : TaskState) (fs : FS) :
    stepLoopF ask jp se max_retries (initState task ts fs) =
      some (execute_step ask jp se task ts fs) := by
  unfold execute_step
  exact (Option.some_get _).symm

theorem execute_step_pres (ask : Nat → String) (jp : JsonParse) (se : ShellExec)
    (task : String) (ts : TaskState) (fs : FS) :
    (execute_step ask jp se task ts fs).2.queries ≤ max_retries ∧
    (execute_step ask jp se task ts fs).2.ts.step_results = ts.step_results ∧
    (execute_step ask jp se task ts fs).2.ts.last_stdout = ts.last_stdout := by
  have h := stepLoopF_final (execute_step_spec ask jp se task ts fs)
  simpa [initState] using h

/-- The outcome of one whole task run. -/
inductive TaskOutcome where
  | planFailed : TaskOutcome
  | aborted : TaskOutcome
  | completed : String → TaskOutcome
deriving DecidableEq

/-- The observable result of run_agent: the outcome, the final task
state and filesystem, and the list of plan steps whose execution was
entered, in order. -/
structure RunResult where
  outcome : TaskOutcome
  ts : TaskState
  fs : FS
  executed : List String
deriving DecidableEq

/-- The step loop of run_agent: each successful step result is appended
to step_results and becomes last_stdout for the next step; a failed step
aborts at once.  On completion the reported text is the last entry of
step_results, matching the final print of the source (run_agent only
reaches the loop with a non-empty plan, so the default is unreachable
there). -/
def runPlan (ask : Nat → Nat → String) (jp : JsonParse) (se : ShellExec) :
    List String → Nat → TaskState → FS → RunResult
  | [], _, ts, fs =>
    { outcome := .completed (ts.step_results.getLast?.getD ""), ts := ts, fs := fs,
      executed := [] }
  | step :: rest, i, ts, fs =>
    match execute_step (ask i) jp se step ts fs with
    | (.done r, s') =>
      let R := runPlan ask jp se rest (i + 1)
        { s'.ts with step_results := s'.ts.step_results ++ [r], last_stdout := r } s'.fs
      { R with executed := step :: R.executed }
    | (.failed _, s') =>
      { outcome := .aborted, ts := s'.ts, fs := s'.fs, executed := [step] }

/-- The fresh task state created by run_agent. -/
def initTaskState : TaskState := { step_results := [], last_stdout := "", files_read := [] }

/-- run_agent from agent.py, from the planner reply onwards: an empty
plan is a planning failure, otherwise the steps run in order. -/
def run_agent (ask : Nat → Nat → String) (jp : JsonParse) (se : ShellExec)
    (plan : List String) (fs : FS) : RunResult :=
  if plan.isEmpty then
    { outcome := .planFailed, ts := initTaskState, fs := fs, executed := [] }
  else runPlan ask jp se plan 0 initTaskState fs

theorem stepIter_final_route {jp : JsonParse} {se : ShellExec} {r : String} {s : LoopState}
    {j : Json} {v : String}
    (h1 : parse_json_response jp r = some j) (h2 : j.falsy = false)
    (h3 : (validate_response j).1 = true) (h4 : j.lookup "final" = some (Json.str v)) :
    stepIter jp se r s = handleFinal r v s := by
  unfold stepIter
  rw [h1]
  simp only [h2, Bool.false_eq_true, if_false, h3, Bool.not_true, ite_false]
  unfold handleValid
  rw [h4]

theorem stepIter_tool_route {jp : JsonParse} {se : ShellExec} {r : String} {s : LoopState}
    {j : Json} {a inp : String}
    (h1 : parse_json_response jp r = some j) (h2 : j.falsy = false)
    (h3 : (validate_response j).1 = true) (h4 : j.lookup "final" = none)
    (h5 : j.lookup "action" = some (Json.str a)) (h6 : j.lookup "input" = some (Json.str inp)) :
    stepIter jp se r s = handleTool jp se r a inp s := by
  unfold stepIter
  rw [h1]
  simp only [h2, Bool.false_eq_true, if_false, h3, Bool.not_true, ite_false]
  unfold handleValid
  rw [h4, h5, h6]

theorem handleTool_shell (jp : JsonParse) (se : ShellExec) (r inp : String) (s : LoopState) :
    handleTool jp se r "shell" inp s =
      if forbiddenWords.any (fun w => containsSub inp w) then .failed .forbiddenCommand s
      else dispatchTool jp se r "shell" inp s := by
  unfold handleTool
  have h1 : TOOLS.contains "shell" = true := by decide
  have h2 : (("shell" : String) == "write_file") = false := by decide
  have h3 : (("shell" : String) == "shell") = true := by decide
  rw [h1, h2, h3]
  simp only [Bool.not_true, Bool.false_eq_true, if_false, if_true]

theorem handleTool_write (jp : JsonParse) (se : ShellExec) (r inp : String) (s : LoopState) :
    handleTool jp se r "write_file" inp s =
      (match writeDecodedPath jp inp with
       | none => IterOut.failed .invalidWriteInput s
       | some p =>
         if pathInFilesRead s.ts p then dispatchTool jp se r "write_file" inp s
         else IterOut.failed .writeBeforeRead s) := by
  unfold handleTool
  have h1 : TOOLS.contains "write_file" = true := by decide
  have h2 : (("write_file" : String) == "write_file") = true := by decide
  rw [h1, h2]
  simp only [Bool.not_true, Bool.false_eq_true, if_false, if_true]

theorem handleTool_dispatch {jp : JsonParse} {se : ShellExec} {r a inp : String} {s : LoopState}
    (hreg : TOOLS.contains a = true)
    (hnw : (a == "write_file") = false)
    (hforb : (a == "shell" && forbiddenWords.any (fun w => containsSub inp w)) = false) :
    handleTool jp se r a inp s = dispatchTool jp se r a inp s := by
  unfold handleTool
  rw [hreg, hnw]
  simp only [Bool.not_true, Bool.false_eq_true, if_false]
  by_cases hsh : (a == "shell") = true
  · rw [hsh] at hforb ⊢
    simp only [Bool.true_and] at hforb
    simp only [hforb, Bool.false_eq_true, if_false, if_true]
  · have hsh' : (a == "shell") = false := by
      cases hab : (a == "shell") with
      | false => rfl
      | true => exact absurd hab hsh
    rw [hsh']
    simp only [Bool.false_eq_true, if_false]

theorem lookupPairs_mem {kvs : List (String × Json)} {k : String} {v : Json}
    (h : lookupPairs kvs k = some v) : k ∈ kvs.map Prod.fst := by
  induction kvs with
  | nil => cases h
  | cons kv rest ih =>
    obtain ⟨k0, v0⟩ := kv
    unfold lookupPairs at h
    split at h
    · next heq =>
      simp only [List.map, List.mem_cons]
      left
      exact (eq_of_beq heq).symm
    · simp only [List.map, List.mem_cons]
      right
      exact ih h

theorem two_slot_absurd {p q : String × Json}
    (h1 : "final" = p.1 ∨ "final" = q.1) (h2 : "action" = p.1 ∨ "action" = q.1)
    (h3 : "input" = p.1 ∨ "input" = q.1) : False := by
  rcases h1 with h1 | h1 <;> rcases h2 with h2 | h2 <;> rcases h3 with h3 | h3 <;>
    first
      | exact absurd (h1.trans h2.symm) (by decide)
      | exact absurd (h1.trans h3.symm) (by decide)
      | exact absurd (h2.trans h3.symm) (by decide)

theorem validate_iff (j : Json) :
    (validate_response j).1 = true ↔ (isFinalShape j || isToolShape j) = true := by
  cases j with
  | obj kvs =>
    unfold validate_response isFinalShape isToolShape
    rcases hf : lookupPairs kvs "final" with _ | vf
    · rcases ha : lookupPairs kvs "action" with _ | va
      · simp [hf, ha]
      · rcases hi : lookupPairs kvs "input" with _ | vi
        · simp [hf, ha, hi]
        · by_cases hlen : kvs.length = 2
          · cases va <;> cases vi <;> simp [hf, ha, hi, hlen]
          · simp [hf, ha, hi, hlen]
    · by_cases hlen : kvs.length = 1
      · cases vf <;> simp [hf, hlen]
      · by_cases hlen2 : kvs.length = 2
        · rcases ha : lookupPairs kvs "action" with _ | va
          · simp [hf, ha, hlen, hlen2]
          · rcases hi : lookupPairs kvs "input" with _ | vi
            · simp [hf, ha, hi, hlen, hlen2]
            · exfalso
              have hm1 := lookupPairs_mem hf
              have hm2 := lookupPairs_mem ha
              have hm3 := lookupPairs_mem hi
              obtain ⟨p, q, hpq⟩ := List.length_eq_two.mp hlen2
              subst hpq
              simp only [List.map, List.mem_cons, List.not_mem_nil, or_false,
                List.mem_singleton] at hm1 hm2 hm3
              exact two_slot_absurd hm1 hm2 hm3
        · simp [hf, hlen, hlen2]
  | null => simp [validate_response, isFinalShape, isToolShape]
  | bool b => simp [validate_response, isFinalShape, isToolShape]
  | num n => simp [validate_response, isFinalShape, isToolShape]
  | str s => simp [validate_response, isFinalShape, isToolShape]
  | arr xs => simp [validate_response, isFinalShape, isToolShape]

/-- A subprocess oracle whose commands always succeed silently. -/
def seZ : ShellExec := fun _ fs => ({ stdout := "", stderr := "", returncode := 0 }, fs)

/-- A fresh loop state over an empty task state and filesystem. -/
def s0 : LoopState := initState "demo step" { step_results := [], last_stdout := "", files_read := [] } []

/-- A parse oracle whose replies are an object of the wrong shape. -/
def jpBadShape : JsonParse := fun _ => Except.ok (Json.obj [("foo", Json.str "x")])

/-- A parse oracle whose replies are the empty JSON object. -/
def jpEmptyObj : JsonParse := fun _ => Except.ok (Json.obj [])

/-- C7: the response validator accepts a parsed reply exactly when it is
an object of the final shape (single key final, string value) or of the
tool shape (exactly action and input, both strings); a reply that fails
to parse or fails the shape check makes the whole step fail
unrecoverably, while tool-execution outcomes always return to querying
the model. -/
theorem C7_validator_acceptance (j : Json) (jp : JsonParse) (se : ShellExec) (r : String)
    (s : LoopState) :
    ((validate_response j).1 = true ↔ (isFinalShape j || isToolShape j) = true) ∧
    (match parse_json_response jp r with
     | none => stepIter jp se r s = IterOut.failed FailCause.invalidJson s
     | some j2 =>
       (validate_response j2).1 = false →
         stepIter jp se r s =
           IterOut.failed
             (if j2.falsy then FailCause.invalidJson else FailCause.invalidStructure) s) ∧
    (∀ (r2 a2 i2 : String) (res : ToolResult) (fs2 : FS) (s2 : LoopState),
      (afterExec r2 a2 i2 res fs2 s2).isRetry = true) := by
  refine ⟨validate_iff j, ?_, ?_⟩
  · rcases hp : parse_json_response jp r with _ | j2
    · unfold stepIter
      rw [hp]
    · intro hv
      unfold stepIter
      rw [hp]
      by_cases hf : j2.falsy = true
      · simp [hf]
      · have hf' : j2.falsy = false := by
          cases hfv : j2.falsy with
          | true => exact absurd hfv hf
          | false => rfl
        simp [hf', hv]
  · intro r2 a2 i2 res fs2 s2
    unfold afterExec
    split <;> rfl

theorem C7_validator_acceptance_witness :
    stepIter jpBadShape seZ "r7" s0 = IterOut.failed FailCause.invalidStructure s0 := by
  have h := (C7_validator_acceptance (Json.obj [("foo", Json.str "x")]) jpBadShape seZ "r7" s0).2.1
  exact (h (by decide)).trans
    (congrArg (fun c => IterOut.failed c s0) (by decide))

/-- C10: a model reply parsing to a falsy JSON value (empty object, empty
array, 0, false, null or the empty string) is classified by the step
executor as an unparseable reply, because the executor tests the parsed
value for truthiness; the step still aborts unrecoverably, but the empty
object never reaches shape validation, which would have rejected it with
the structural error. -/
theorem C10_falsy_reply_classification (jp : JsonParse) (se : ShellExec) (r : String)
    (s : LoopState) (j : Json) :
    (jp r = Except.ok j → j.falsy = true →
      stepIter jp se r s = IterOut.failed FailCause.invalidJson s) ∧
    Json.falsy (Json.obj []) = true ∧ Json.falsy (Json.arr []) = true ∧
    Json.falsy (Json.num 0) = true ∧ Json.falsy (Json.bool false) = true ∧
    Json.falsy Json.null = true ∧ Json.falsy (Json.str "") = true ∧
    (validate_response (Json.obj [])).1 = false ∧
    (validate_response (Json.obj [])).2 = some "Invalid JSON structure" := by
  refine ⟨?_, by decide, by decide, by decide, by decide, by decide, by decide, by decide, by decide⟩
  intro hok hf
  unfold stepIter parse_json_response
  rw [hok]
  simp [hf]

theorem C10_falsy_reply_classification_witness :
    stepIter jpEmptyObj seZ "r10" s0 = IterOut.failed FailCause.invalidJson s0 :=
  (C10_falsy_reply_classification jpEmptyObj seZ "r10" s0 (Json.obj [])).1 rfl rfl

/-- A parse oracle whose replies are a valid final answer. -/
def jpFinal : JsonParse := fun _ => Except.ok (Json.obj [("final", Json.str "ok")])

/-- A loop state whose last execution was successful. -/
def sLes : LoopState := { s0 with les := true }

/-- C4: a validated final-answer reply terminates the step with its string
exactly when the last dispatch of the step succeeded; when
last_execution_successful is false (as it is initially), the executor
appends the reply and a corrective user message, increments the retry
counter and returns to querying the model instead of terminating. -/
theorem C4_final_requires_success (jp : JsonParse) (se : ShellExec) (r : String) (s : LoopState)
    (j : Json) (v task : String) (ts : TaskState) (fs : FS)
    (h1 : parse_json_response jp r = some j) (h2 : j.falsy = false)
    (h3 : (validate_response j).1 = true) (h4 : j.lookup "final" = some (Json.str v)) :
    (stepIter jp se r s =
      if s.les then IterOut.done v s else IterOut.retry (premFinalState r s)) ∧
    (initState task ts fs).les = false := by
  refine ⟨?_, rfl⟩
  rw [stepIter_final_route h1 h2 h3 h4]
  rfl

theorem C4_final_requires_success_witness :
    (stepIter jpFinal seZ "r4a" sLes = IterOut.done "ok" sLes) ∧
    (stepIter jpFinal seZ "r4b" s0 = IterOut.retry (premFinalState "r4b" s0)) := by
  constructor
  · have h := (C4_final_requires_success jpFinal seZ "r4a" sLes
      (Json.obj [("final", Json.str "ok")]) "ok" "t" initTaskState [] rfl rfl (by decide) rfl).1
    exact h.trans (if_pos rfl)
  · have h := (C4_final_requires_success jpFinal seZ "r4b" s0
      (Json.obj [("final", Json.str "ok")]) "ok" "t" initTaskState [] rfl rfl (by decide) rfl).1
    exact h.trans (if_neg (by decide))

/-- A parse oracle whose replies call the shell tool with the command ls. -/
def jpShellLs : JsonParse := fun _ =>
  Except.ok (Json.obj [("action", Json.str "shell"), ("input", Json.str "ls")])

/-- A subprocess oracle that always fails with exit code 2. -/
def seFail : ShellExec := fun _ fs =>
  ({ stdout := "", stderr := "ls: cannot access", returncode := 2 }, fs)

/-- C5: a dispatched tool execution counts as successful exactly when its
exit code is 0 and its stderr is empty; a failing execution clears
last_execution_successful, appends a corrective user message quoting the
exit code and the stderr, increments the retry counter and returns to
querying the model, while a successful one sets the flag and also
returns to querying. -/
theorem C5_execution_success_definition (jp : JsonParse) (se : ShellExec) (r : String)
    (s : LoopState) (j : Json) (a inp : String)
    (h1 : parse_json_response jp r = some j) (h2 : j.falsy = false)
    (h3 : (validate_response j).1 = true) (h4 : j.lookup "final" = none)
    (h5 : j.lookup "action" = some (Json.str a)) (h6 : j.lookup "input" = some (Json.str inp))
    (hreg : TOOLS.contains a = true) (hnw : (a == "write_file") = false)
    (hforb : (a == "shell" && forbiddenWords.any (fun w => containsSub inp w)) = false) :
    stepIter jp se r s =
      (if (runTool jp se a inp s.fs).1.returncode != 0 ||
          (runTool jp se a inp s.fs).1.stderr != "" then
        IterOut.retry
          (execFailState r a inp (runTool jp se a inp s.fs).1 (runTool jp se a inp s.fs).2 s)
      else
        IterOut.retry
          (execSuccState r a inp (runTool jp se a inp s.fs).1 (runTool jp se a inp s.fs).2 s)) := by
  rw [stepIter_tool_route h1 h2 h3 h4 h5 h6, handleTool_dispatch hreg hnw hforb]
  rfl

theorem C5_execution_success_definition_witness :
    stepIter jpShellLs seFail "r5" s0 =
      IterOut.retry
        (execFailState "r5" "shell" "ls"
          { stdout := "", stderr := "ls: cannot access", returncode := 2 } [] s0) := by
  have h := C5_execution_success_definition jpShellLs seFail "r5" s0
    (Json.obj [("action", Json.str "shell"), ("input", Json.str "ls")]) "shell" "ls"
    rfl rfl (by decide) rfl rfl rfl (by decide) (by decide) (by decide)
  refine h.trans ?_
  have hc : ((runTool jpShellLs seFail "shell" "ls" s0.fs).1.returncode != 0 ||
      (runTool jpShellLs seFail "shell" "ls" s0.fs).1.stderr != "") = true := by decide
  rw [if_pos hc]
  have hres : (runTool jpShellLs seFail "shell" "ls" s0.fs).1 =
      { stdout := "", stderr := "ls: cannot access", returncode := 2 } := by decide
  have hfs : (runTool jpShellLs seFail "shell" "ls" s0.fs).2 = ([] : FS) := by decide
  rw [hres, hfs]

/-- The next retry counter demanded of an iteration outcome: on a
transition back to querying it must be the strict successor of the
current counter. -/
def retryNext (o : IterOut) (n : Nat) : Prop :=
  match o with
  | IterOut.retry s' => s'.retry_count = n + 1
  | _ => True

/-- C6: within one step the retry counter starts at zero and strictly
increases on every transition back to querying the model; whenever the
counter has reached the maximum of 5 the loop fails with the retry-limit
cause regardless of anything else, and execute_step performs at most
max_retries model queries, so every step terminates. -/
theorem C6_retry_monotonic_and_bounded (ask : Nat → String) (jp : JsonParse) (se : ShellExec)
    (task : String) (ts : TaskState) (fs : FS) (r : String) (s : LoopState) (fuel k : Nat) :
    (initState task ts fs).retry_count = 0 ∧
    retryNext (stepIter jp se r s) s.retry_count ∧
    stepLoopF ask jp se fuel { s with retry_count := max_retries + k } =
      some (StepOutcome.failed FailCause.retryLimit, { s with retry_count := max_retries + k }) ∧
    (execute_step ask jp se task ts fs).2.queries ≤ max_retries := by
  refine ⟨rfl, ?_, ?_, (execute_step_pres ask jp se task ts fs).1⟩
  · cases hs : stepIter jp se r s with
    | retry s' =>
      unfold retryNext
      exact stepIter_retry hs
    | done v s' => trivial
    | failed c s' => trivial
  · cases fuel with
    | zero =>
      simp only [stepLoopF]
      rw [if_pos (Nat.le_add_right max_retries k)]
    | succ n =>
      simp only [stepLoopF]
      rw [if_pos (Nat.le_add_right max_retries k)]

/-- A parse oracle whose replies call the shell tool with a recursive
delete command. -/
def jpShellRm : JsonParse := fun _ =>
  Except.ok (Json.obj [("action", Json.str "shell"), ("input", Json.str "rm -rf /tmp/x")])

/-- A parse oracle whose replies call the shell tool with a package
install command. -/
def jpShellPip : JsonParse := fun _ =>
  Except.ok (Json.obj [("action", Json.str "shell"), ("input", Json.str "pip install requests")])

/-- C1 counterexample: on the reply calling shell with rm -rf /tmp/x, a
destructive denylisted input, the step does NOT fail unrecoverably with
zero retries: the shell tool is dispatched (the invocation is recorded),
it returns the blocked result, and the executor treats it as a retryable
execution failure, consuming one retry. -/
theorem C1_destructive_not_predispatch_counterexample :
    stepIter jpShellRm seZ "r1" s0 =
      IterOut.retry
        (execFailState "r1" "shell" "rm -rf /tmp/x"
          { stdout := "", stderr := "Command blocked for safety.", returncode := 1 } [] s0) ∧
    (execFailState "r1" "shell" "rm -rf /tmp/x"
        { stdout := "", stderr := "Command blocked for safety.", returncode := 1 } [] s0).retry_count = 1 ∧
    (execFailState "r1" "shell" "rm -rf /tmp/x"
        { stdout := "", stderr := "Command blocked for safety.", returncode := 1 } [] s0).invocations =
      [("shell", "rm -rf /tmp/x")] := by
  refine ⟨?_, by decide, by decide⟩
  decide

/-- C1 amended: for a validated shell tool call, an input containing an
environment-mutation substring (pip, venv, apt, yum, brew, install) is
rejected by the executor before dispatch as an unrecoverable step failure
with the state untouched; an input containing only a destructive
substring from the shell tool denylist (rm , shutdown, reboot, mkfs,
dd ) is dispatched to the shell tool, which blocks it without consulting
the subprocess and returns exit code 1 with stderr set, and the executor
treats that as a retryable execution failure; all other inputs run the
subprocess. -/
theorem C1_shell_policy_amended (jp : JsonParse) (se : ShellExec) (r : String) (s : LoopState)
    (j : Json) (inp : String)
    (h1 : parse_json_response jp r = some j) (h2 : j.falsy = false)
    (h3 : (validate_response j).1 = true) (h4 : j.lookup "final" = none)
    (h5 : j.lookup "action" = some (Json.str "shell"))
    (h6 : j.lookup "input" = some (Json.str inp)) :
    stepIter jp se r s =
      (if forbiddenWords.any (fun w => containsSub inp w) then
        IterOut.failed FailCause.forbiddenCommand s
      else if blocked.any (fun cmd => containsSub inp cmd) then
        IterOut.retry
          (execFailState r "shell" inp
            { stdout := "", stderr := "Command blocked for safety.", returncode := 1 } s.fs s)
      else
        afterExec r "shell" inp
          { stdout := pyStrip (se inp s.fs).1.stdout,
            stderr := pyStrip (se inp s.fs).1.stderr,
            returncode := (se inp s.fs).1.returncode } (se inp s.fs).2 s) := by
  rw [stepIter_tool_route h1 h2 h3 h4 h5 h6, handleTool_shell]
  by_cases hforb : forbiddenWords.any (fun w => containsSub inp w) = true
  · rw [if_pos hforb, if_pos hforb]
  · have hforb' : forbiddenWords.any (fun w => containsSub inp w) = false := by
      cases hx : forbiddenWords.any (fun w => containsSub inp w) with
      | true => exact absurd hx hforb
      | false => rfl
    rw [if_neg hforb, if_neg hforb]
    unfold dispatchTool runTool ShellTool.run
    have hsh : (("shell" : String) == "shell") = true := by decide
    rw [hsh]
    simp only [if_true]
    by_cases hb : blocked.any (fun cmd => containsSub inp cmd) = true
    · rw [if_pos hb, if_pos hb]
      unfold afterExec
      rfl
    · have hb' : blocked.any (fun cmd => containsSub inp cmd) = false := by
        cases hx : blocked.any (fun cmd => containsSub inp cmd) with
        | true => exact absurd hx hb
        | false => rfl
      rw [if_neg hb, if_neg hb]

theorem C1_shell_policy_amended_witness :
    stepIter jpShellPip seZ "r2" s0 = IterOut.failed FailCause.forbiddenCommand s0 := by
  have h := C1_shell_policy_amended jpShellPip seZ "r2" s0
    (Json.obj [("action", Json.str "shell"), ("input", Json.str "pip install requests")])
    "pip install requests" rfl rfl (by decide) rfl rfl rfl
  refine h.trans ?_
  rw [if_pos (by decide)]

theorem readUpdate_files_read (a inp : String) (res : ToolResult) (ts : TaskState) :
    (readUpdate a inp res ts).files_read =
      (if a == "read_file" && res.returncode == 0 then
        updateAssoc ts.files_read inp res.stdout
      else ts.files_read) := by
  unfold readUpdate
  split
  · rfl
  · rfl

/-- A parse oracle whose replies call write_file with a payload naming a
never-read path. -/
def jpWriteB : JsonParse := fun t =>
  if t == "pB" then Except.ok (Json.obj [("path", Json.str "b.txt"), ("content", Json.str "x")])
  else Except.ok (Json.obj [("action", Json.str "write_file"), ("input", Json.str "pB")])

/-- C2: a write_file call whose decoded path is not a key of files_read
is rejected before dispatch: the state is returned untouched, so the
write tool is never invoked and no file is written, and the step fails
unrecoverably; conversely the files_read mapping changes only at a
dispatched read_file whose result has exit code 0, gaining the input
path bound to the stdout of the result, which for the read tool is the
stripped file content. -/
theorem C2_read_before_write (jp : JsonParse) (se : ShellExec) (r : String) (s : LoopState)
    (j : Json) (inp : String) (p : Json)
    (h1 : parse_json_response jp r = some j) (h2 : j.falsy = false)
    (h3 : (validate_response j).1 = true) (h4 : j.lookup "final" = none)
    (h5 : j.lookup "action" = some (Json.str "write_file"))
    (h6 : j.lookup "input" = some (Json.str inp))
    (h7 : writeDecodedPath jp inp = some p) (h8 : pathInFilesRead s.ts p = false) :
    stepIter jp se r s = IterOut.failed FailCause.writeBeforeRead s ∧
    (∀ (r2 a2 i2 : String) (res : ToolResult) (fs2 : FS) (s2 : LoopState),
      (afterExec r2 a2 i2 res fs2 s2).state.ts.files_read =
        (if a2 == "read_file" && res.returncode == 0 then
          updateAssoc s2.ts.files_read i2 res.stdout
        else s2.ts.files_read)) ∧
    (∀ (fs3 : FS) (p3 : String),
      ReadFileTool.run fs3 p3 =
        (match lookupStr fs3 p3 with
         | none => { stdout := "", stderr := "File not found.", returncode := 1 }
         | some c => { stdout := pyStrip c, stderr := "", returncode := 0 })) := by
  refine ⟨?_, ?_, ?_⟩
  · rw [stepIter_tool_route h1 h2 h3 h4 h5 h6, handleTool_write, h7]
    show (if pathInFilesRead s.ts p = true then dispatchTool jp se r "write_file" inp s
          else IterOut.failed FailCause.writeBeforeRead s) =
        IterOut.failed FailCause.writeBeforeRead s
    rw [if_neg (by rw [h8]; exact Bool.false_ne_true)]
  · intro r2 a2 i2 res fs2 s2
    unfold afterExec
    split
    · simp only [IterOut.state]
      exact readUpdate_files_read a2 i2 res s2.ts
    · simp only [IterOut.state]
      exact readUpdate_files_read a2 i2 res s2.ts
  · intro fs3 p3
    rfl

theorem C2_read_before_write_witness :
    stepIter jpWriteB seZ "rB" s0 = IterOut.failed FailCause.writeBeforeRead s0 :=
  (C2_read_before_write jpWriteB seZ "rB" s0
    (Json.obj [("action", Json.str "write_file"), ("input", Json.str "pB")]) "pB"
    (Json.str "b.txt") rfl rfl (by decide) rfl rfl rfl rfl rfl).1

/-- A parse oracle whose replies call write_file with a payload that has
a previously read path but no content field. -/
def jpWriteNoContent : JsonParse := fun t =>
  if t == "p3" then Except.ok (Json.obj [("path", Json.str "a.txt")])
  else Except.ok (Json.obj [("action", Json.str "write_file"), ("input", Json.str "p3")])

/-- A loop state in which a.txt was already read. -/
def sRead : LoopState :=
  { s0 with ts := { step_results := [], last_stdout := "", files_read := [("a.txt", "hi")] } }

/-- C3 counterexample: a write_file payload decoding to an object with a
previously read path but no content string does NOT fail the step
unrecoverably: the executor pre-check only indexes the path field, the
write tool IS invoked (the invocation is recorded), its KeyError is
returned as a returncode 1 result, and the executor consumes a retry. -/
theorem C3_missing_content_counterexample :
    stepIter jpWriteNoContent seZ "r3" sRead =
      IterOut.retry
        (execFailState "r3" "write_file" "p3"
          { stdout := "", stderr := "KeyError: content", returncode := 1 } [] sRead) ∧
    (execFailState "r3" "write_file" "p3"
        { stdout := "", stderr := "KeyError: content", returncode := 1 } [] sRead).invocations =
      [("write_file", "p3")] ∧
    (execFailState "r3" "write_file" "p3"
        { stdout := "", stderr := "KeyError: content", returncode := 1 } [] sRead).retry_count = 1 := by
  refine ⟨?_, by decide, by decide⟩
  decide

/-- C3 amended: the executor pre-check of a write_file call only demands
that the payload decode to an object with a path entry; when that decode
fails the step aborts unrecoverably with the write tool not invoked, but
a payload whose path was previously read passes the pre-check even
without a content string: the write tool is then invoked and reports its
own decode failure as a returncode 1 result, which the executor retries
like any execution failure. -/
theorem C3_write_payload_amended (jp : JsonParse) (se : ShellExec) (r : String) (s : LoopState)
    (j : Json) (inp : String)
    (h1 : parse_json_response jp r = some j) (h2 : j.falsy = false)
    (h3 : (validate_response j).1 = true) (h4 : j.lookup "final" = none)
    (h5 : j.lookup "action" = some (Json.str "write_file"))
    (h6 : j.lookup "input" = some (Json.str inp)) :
    stepIter jp se r s =
      (match writeDecodedPath jp inp with
       | none => IterOut.failed FailCause.invalidWriteInput s
       | some p =>
         if pathInFilesRead s.ts p then
           afterExec r "write_file" inp (WriteFileTool.run jp s.fs inp).1
             (WriteFileTool.run jp s.fs inp).2 s
         else IterOut.failed FailCause.writeBeforeRead s) := by
  rw [stepIter_tool_route h1 h2 h3 h4 h5 h6, handleTool_write]
  rcases hw : writeDecodedPath jp inp with _ | p
  · rfl
  · show (if pathInFilesRead s.ts p = true then dispatchTool jp se r "write_file" inp s
          else IterOut.failed FailCause.writeBeforeRead s) =
        (if pathInFilesRead s.ts p = true then
          afterExec r "write_file" inp (WriteFileTool.run jp s.fs inp).1
            (WriteFileTool.run jp s.fs inp).2 s
        else IterOut.failed FailCause.writeBeforeRead s)
    by_cases hp : pathInFilesRead s.ts p = true
    · rw [if_pos hp, if_pos hp]
      rfl
    · rw [if_neg hp, if_neg hp]

/-- A parse oracle whose replies call write_file with an undecodable
payload. -/
def jpWriteBadPayload : JsonParse := fun t =>
  if t == "r4w" then
    Except.ok (Json.obj [("action", Json.str "write_file"), ("input", Json.str "oops")])
  else Except.error "Expecting value: line 1 column 1 (char 0)"

theorem C3_write_payload_amended_witness :
    stepIter jpWriteBadPayload seZ "r4w" s0 = IterOut.failed FailCause.invalidWriteInput s0 := by
  have h := C3_write_payload_amended jpWriteBadPayload seZ "r4w" s0
    (Json.obj [("action", Json.str "write_file"), ("input", Json.str "oops")]) "oops"
    rfl rfl (by decide) rfl rfl rfl
  exact h.trans rfl

/-- A parse oracle that always raises. -/
def jpErr : JsonParse := fun _ => Except.error "Expecting value: line 1 column 1 (char 0)"

theorem lookupOs_text :
    ∀ (ofs : OsFS) (p : String), osAllFiles ofs = true →
      lookupOs ofs p = (lookupStr (osTextFiles ofs) p).map OsEntry.file := by
  intro ofs
  induction ofs with
  | nil =>
    intro p h
    rfl
  | cons e rest ih =>
    intro p h
    obtain ⟨q, entry⟩ := e
    cases entry with
    | file c =>
      have h' : osAllFiles rest = true := by simpa [osAllFiles] using h
      unfold lookupOs osTextFiles lookupStr
      by_cases hq : (q == p) = true
      · rw [if_pos hq, if_pos hq]
        rfl
      · rw [if_neg hq, if_neg hq]
        exact ih p h'
    | dir => exact absurd h (by simp [osAllFiles])
    | binary => exact absurd h (by simp [osAllFiles])

theorem runOS_agrees_on_text (ofs : OsFS) (p : String) (h : osAllFiles ofs = true) :
    ReadFileTool.runOS ofs p = Except.ok (ReadFileTool.run (osTextFiles ofs) p) := by
  unfold ReadFileTool.runOS ReadFileTool.run
  rw [lookupOs_text ofs p h]
  rcases h2 : lookupStr (osTextFiles ofs) p with _ | c
  · rfl
  · rfl

/-- C8: the no-raise tool contract of the claim fails on the source.
ReadFileTool.run performs os.path.exists and then open and read with no
try/except, so on a path naming an existing directory the exists check
passes and open raises IsADirectoryError uncaught past the run boundary
(an existing undecodable file likewise raises UnicodeDecodeError), while
a missing path does return the promised returncode 1 result, and the
write tool, whose body is wrapped in try/except, returns its decode
failure as a returncode 1 result with the message in stderr as claimed. -/
theorem C8_read_tool_raises_on_directory :
    os_path_exists [(".", OsEntry.dir)] "." = true ∧
    ReadFileTool.runOS [(".", OsEntry.dir)] "." = Except.error "IsADirectoryError" ∧
    ReadFileTool.runOS [(".", OsEntry.dir)] "missing.txt" =
      Except.ok { stdout := "", stderr := "File not found.", returncode := 1 } ∧
    ReadFileTool.runOS [("data.bin", OsEntry.binary)] "data.bin" =
      Except.error "UnicodeDecodeError" ∧
    WriteFileTool.run jpErr [] "x" =
      ({ stdout := "", stderr := "Expecting value: line 1 column 1 (char 0)", returncode := 1 },
        ([] : FS)) := by
  exact ⟨rfl, rfl, rfl, rfl, rfl⟩

theorem getLastD_cons (r : String) (rs : List String) (d : String) :
    (r :: rs).getLast?.getD d = rs.getLast?.getD r := by
  cases rs with
  | nil => rfl
  | cons x xs =>
    rw [List.getLast?_cons_cons]
    have hs : (x :: xs).getLast?.isSome := by
      rw [List.getLast?_isSome]
      simp
    rcases Option.isSome_iff_exists.mp hs with ⟨y, hy⟩
    rw [hy]
    rfl

/-- C9: the orchestrator loop runs the plan steps strictly in order (the
executed steps are always a prefix of the plan); when every step
succeeds, all steps ran, each final text was appended to step_results
and threaded as last_stdout into the next step, and the completed
outcome carries the last entry of step_results, the final step text;
when a step fails the loop aborts at that step with the aborted outcome,
which carries no result text, the failing step being the last one
entered and only the earlier results recorded. -/
theorem C9_orchestrator_sequencing (ask : Nat → Nat → String) (jp : JsonParse) (se : ShellExec) :
    ∀ (plan : List String) (i : Nat) (ts : TaskState) (fs : FS),
      (∃ n, (runPlan ask jp se plan i ts fs).executed = plan.take n) ∧
      ((∃ rs, (runPlan ask jp se plan i ts fs).outcome =
            TaskOutcome.completed ((ts.step_results ++ rs).getLast?.getD "") ∧
          (runPlan ask jp se plan i ts fs).executed = plan ∧
          rs.length = plan.length ∧
          (runPlan ask jp se plan i ts fs).ts.step_results = ts.step_results ++ rs ∧
          (runPlan ask jp se plan i ts fs).ts.last_stdout = rs.getLast?.getD ts.last_stdout) ∨
       ((runPlan ask jp se plan i ts fs).outcome = TaskOutcome.aborted ∧
        ∃ n rs, (runPlan ask jp se plan i ts fs).executed = plan.take (n + 1) ∧
          n < plan.length ∧ rs.length = n ∧
          (runPlan ask jp se plan i ts fs).ts.step_results = ts.step_results ++ rs)) := by
  intro plan
  induction plan with
  | nil =>
    intro i ts fs
    refine ⟨⟨0, rfl⟩, Or.inl ⟨[], ?_, rfl, rfl, ?_, ?_⟩⟩
    · simp [runPlan]
    · simp [runPlan]
    · simp [runPlan]
  | cons step rest ih =>
    intro i ts fs
    have hpres := execute_step_pres (ask i) jp se step ts fs
    rcases he : execute_step (ask i) jp se step ts fs with ⟨out, s'⟩
    rw [he] at hpres
    dsimp only at hpres
    cases out with
    | done r =>
      obtain ⟨IH1, IH2⟩ := ih (i + 1)
        { s'.ts with step_results := s'.ts.step_results ++ [r], last_stdout := r } s'.fs
      simp only [runPlan, he]
      dsimp only at IH1 IH2
      constructor
      · obtain ⟨n, hn⟩ := IH1
        exact ⟨n + 1, by rw [List.take_succ_cons, hn]⟩
      · rcases IH2 with ⟨rs', hout, hexec, hlen, hsr, hls⟩ | ⟨hout, n, rs', hexec, hn, hlen, hsr⟩
        · refine Or.inl ⟨r :: rs', ?_, ?_, ?_, ?_, ?_⟩
          · rw [hout, hpres.2.1, List.append_assoc, List.singleton_append]
          · rw [hexec]
          · simp [hlen]
          · rw [hsr, hpres.2.1, List.append_assoc, List.singleton_append]
          · rw [hls, getLastD_cons]
        · refine Or.inr ⟨hout, n + 1, r :: rs', ?_, ?_, ?_, ?_⟩
          · rw [List.take_succ_cons, hexec]
          · simp
            omega
          · simp [hlen]
          · rw [hsr, hpres.2.1, List.append_assoc, List.singleton_append]
    | failed c =>
      simp only [runPlan, he]
      refine ⟨⟨1, by simp⟩, Or.inr ⟨trivial, 0, [], by simp, by simp, rfl, ?_⟩⟩
      rw [hpres.2.1, List.append_nil]
